import Mathlib

set_option autoImplicit false

/-
  Verification of the transform stage of the sales ETL pipeline
  (src/transform.py, function transform_data).

  Dataframes are modelled as a list of column names plus a list of rows,
  each row a list of scalar cell values.  Pandas operations used by the
  source are modelled on this representation: fallible operations (column
  lookup by name, integer casting of a column, assigning a column-name
  list of the wrong width) return Option, mirroring the exceptions pandas
  raises, which the source catches in one try/except and re-raises.
-/

namespace ETL

/-- Scalar cell value of a dataframe: integer, string, parsed date
(stand-in for pandas Timestamp and datetime.date values), or null
(stand-in for NaN, None and NaT). Floating point cells are not modelled;
no claim depends on fractional values. -/
inductive Val where
  | vInt (n : Int)
  | vStr (s : String)
  | vDate (d : Int)
  | vNull
  deriving Repr, DecidableEq

open Val

/-- Fold a digit list into the number it denotes. -/
def digitsToNat (cs : List Char) : Nat :=
  cs.foldl (fun a c => a * 10 + (c.toNat - 48)) 0

/-- Parse a nonempty all-digit character list as a natural number. -/
def parseNat? (cs : List Char) : Option Nat :=
  if cs ≠ [] ∧ cs.all Char.isDigit then some (digitsToNat cs) else none

/-- Parse a decimal integer string, with an optional leading minus sign. -/
def parseInt? (s : String) : Option Int :=
  match s.toList with
  | [] => none
  | c :: rest =>
    if c = '-' then (parseNat? rest).map (fun n => -(n : Int))
    else (parseNat? (c :: rest)).map (fun n => (n : Int))

/-- Model of pd.to_numeric applied to one cell with errors coerce:
numbers pass through, numeric strings parse, everything else is
unparsable (none, the NaN that the coercion produces). -/
def toNumeric? : Val → Option Int
  | vInt n => some n
  | vStr s => parseInt? s
  | vDate _ => none
  | vNull => none

/-- Model of astype(int) applied to one cell of an object column:
ints pass through, integer strings parse, dates and nulls raise (none). -/
def astypeInt? : Val → Option Int
  | vInt n => some n
  | vStr s => parseInt? s
  | vDate _ => none
  | vNull => none

/-- Parse an ISO formatted date string YYYY-MM-DD into a day code. -/
def parseDate? (s : String) : Option Int :=
  match s.splitOn "-" with
  | [y, m, d] =>
    match parseNat? y.toList, parseNat? m.toList, parseNat? d.toList with
    | some yn, some mn, some dn =>
      if 1 ≤ mn ∧ mn ≤ 12 ∧ 1 ≤ dn ∧ dn ≤ 31 then
        some ((yn * 10000 + mn * 100 + dn : Nat) : Int)
      else none
    | _, _, _ => none
  | _ => none

/-- Model of pd.to_datetime on one cell with errors coerce (composed with
dt.date where the source applies it; the model does not distinguish a
timestamp from its calendar date): already parsed dates pass through,
strings parse or coerce to null, ints are interpreted as epoch offsets,
null stays null. -/
def toDatetime : Val → Val
  | vDate d => vDate d
  | vStr s => match parseDate? s with | some d => vDate d | none => vNull
  | vInt n => vDate n
  | vNull => vNull

/-- A dataframe: named columns and rows of cells. -/
structure DF where
  cols : List String
  rows : List (List Val)
  deriving Repr, DecidableEq

/-- Cell of a row at a column position (null when out of range). -/
def cell (r : List Val) (i : Nat) : Val := r.getD i vNull

/-- Position of a column name in a column list (first occurrence). -/
def colIdx (c : String) : List String → Option Nat
  | [] => none
  | x :: xs => if x = c then some 0 else (colIdx c xs).map (· + 1)

/-- Position of a named column of a dataframe. -/
def DF.idx (df : DF) (c : String) : Option Nat := colIdx c df.cols

/-- Values of a named column, or the empty list when the name is absent. -/
def DF.colD (df : DF) (c : String) : List Val :=
  match df.idx c with
  | some i => df.rows.map (fun r => cell r i)
  | none => []

/-- Values of a column selected by position, as in iloc with a column
number; none when the position is out of range (pandas raises). -/
def DF.colPos? (df : DF) (i : Nat) : Option (List Val) :=
  if i < df.cols.length then some (df.rows.map (fun r => cell r i)) else none

/-- Assign a full list of column names, as in the pandas columns setter;
fails (pandas raises) when the length does not match. -/
def DF.setCols (df : DF) (names : List String) : Option DF :=
  if names.length = df.cols.length then some ⟨names, df.rows⟩ else none

/-- Row slice iloc with a start and stop position. -/
def DF.ilocRange (df : DF) (a b : Nat) : DF :=
  ⟨df.cols, (df.rows.drop a).take (b - a)⟩

/-- Row slice iloc from a start position to the end. -/
def DF.ilocFrom (df : DF) (a : Nat) : DF :=
  ⟨df.cols, df.rows.drop a⟩

/-- Row positions whose first cell equals the sentinel string ID, the
index computed by the source to find the catalog split markers. -/
def sentinelIdxs (df : DF) : List Nat :=
  (List.range df.rows.length).filter
    (fun i => decide (cell (df.rows.getD i []) 0 = vStr "ID"))

/-- Distinct values of a list in order of first occurrence, the model of
the pandas unique method. -/
def dedupAux (seen : List Val) : List Val → List Val
  | [] => []
  | x :: xs => if x ∈ seen then dedupAux seen xs else x :: dedupAux (x :: seen) xs

/-- Distinct values in order of first occurrence. -/
def dedup (xs : List Val) : List Val := dedupAux [] xs

/-- Drop rows whose cell in the named column is null, the model of
dropna with a subset; fails when the column is absent (KeyError). -/
def DF.dropnaCol (df : DF) (c : String) : Option DF :=
  (df.idx c).map fun i =>
    ⟨df.cols, df.rows.filter (fun r => decide (cell r i ≠ vNull))⟩

/-- Keep rows whose cell in the named column coerces to a number, the
model of filtering by to_numeric(...).notnull(). -/
def DF.filterNumericCol (df : DF) (c : String) : Option DF :=
  (df.idx c).map fun i =>
    ⟨df.cols, df.rows.filter (fun r => (toNumeric? (cell r i)).isSome)⟩

/-- Cast the cell at one position of every row to an integer, failing on
the first uncastable cell, as astype(int) does. -/
def castIntRows (i : Nat) : List (List Val) → Option (List (List Val))
  | [] => some []
  | r :: rs =>
    match astypeInt? (cell r i) with
    | none => none
    | some n => (castIntRows i rs).map (fun rest => r.set i (vInt n) :: rest)

/-- Cast a named column to integers, the model of astype(int) on a
column; fails when the column is absent or a cell does not cast. -/
def DF.astypeIntCol (df : DF) (c : String) : Option DF :=
  match df.idx c with
  | none => none
  | some i => (castIntRows i df.rows).map (fun rs => ⟨df.cols, rs⟩)

/-- Rewrite a named column cellwise, the model of assigning a transformed
column back, as the date parsing lines do; fails when absent. -/
def DF.mapCol (df : DF) (c : String) (f : Val → Val) : Option DF :=
  (df.idx c).map fun i =>
    ⟨df.cols, df.rows.map (fun r => r.set i (f (cell r i)))⟩

/-- Collect a list of optional values, failing if any is missing. -/
def allSome {α : Type} : List (Option α) → Option (List α)
  | [] => some []
  | none :: _ => none
  | some a :: rest => (allSome rest).map (a :: ·)

/-- Select the cells of a row at the given positions. -/
def projectRow (r : List Val) (is : List Nat) : List Val :=
  is.map (fun i => cell r i)

/-- Column projection by a list of names, the model of selecting a
dataframe with a double-bracketed column list; fails when a name is
absent (KeyError). -/
def DF.project (df : DF) (cs : List String) : Option DF :=
  (allSome (cs.map (fun c => df.idx c))).map
    (fun is => ⟨cs, df.rows.map (fun r => projectRow r is)⟩)

/-- Rename one column name through an association list, the model of the
pandas rename mapping, which leaves unmatched names unchanged. -/
def renameOne (m : List (String × String)) (c : String) : String :=
  match m.find? (fun p => decide (p.fst = c)) with
  | some p => p.snd
  | none => c

/-- Rename columns through an association list. -/
def DF.renameCols (df : DF) (m : List (String × String)) : DF :=
  ⟨df.cols.map (renameOne m), df.rows⟩

/-- Drop a named column if present, otherwise leave the frame unchanged
(the source guards the drop with a membership test). -/
def DF.dropCol (df : DF) (c : String) : DF :=
  match df.idx c with
  | some i => ⟨df.cols.eraseIdx i, df.rows.map (fun r => r.eraseIdx i)⟩
  | none => df

/-- Left outer merge on one key column from each side, the model of
pd.merge with how left: every left row is kept, matched right rows are
appended in right source order, and an unmatched left row gets nulls in
all right columns; fails when a key column is absent. Column name
suffixing on overlap is not modelled, as the merged frames of the source
share no column names. -/
def DF.mergeLeft (l r : DF) (lk rk : String) : Option DF :=
  match colIdx lk l.cols, colIdx rk r.cols with
  | some li, some ri =>
    some ⟨l.cols ++ r.cols,
      l.rows.flatMap (fun lr =>
        let ms := r.rows.filter (fun rr => decide (cell rr ri = cell lr li))
        if ms.isEmpty then [lr ++ List.replicate r.cols.length vNull]
        else ms.map (fun rr => lr ++ rr))⟩
  | _, _ => none

/-- Drop duplicate rows by the value of one named column, keeping the
first row of each key in source order, the model of drop_duplicates with
a subset. -/
def dedupRowsAux (i : Nat) (seen : List Val) : List (List Val) → List (List Val)
  | [] => []
  | r :: rs =>
    if cell r i ∈ seen then dedupRowsAux i seen rs
    else r :: dedupRowsAux i (cell r i :: seen) rs

/-- Drop duplicate rows by a named column, keeping first occurrences. -/
def DF.dropDupCol (df : DF) (c : String) : Option DF :=
  (df.idx c).map fun i => ⟨df.cols, dedupRowsAux i [] df.rows⟩

/-- Append rows to a dataframe, the model of pd.concat with
ignore_index for frames sharing the same column schema, which is how the
reconciler uses it. -/
def DF.concatRows (df : DF) (newRows : List (List Val)) : DF :=
  ⟨df.cols, df.rows ++ newRows⟩

/-- Warnings recorded by the transform through the module logger. -/
inductive LogMsg where
  | warnOneSentinel
  | warnNoSentinel
  | warnOrphans (ids : List Val)
  deriving Repr, DecidableEq

/-- Canonical column names of the sites catalog. -/
def sedesCols : List String := ["id_sede", "nombre_sede"]

/-- Canonical column names of the transaction-types catalog. -/
def tiposCols : List String := ["id_tipo_trx", "descripcion_tipo"]

/-- Stage 1 of transform_data (lines 20 to 55): split the mixed Varios
table on sentinel rows whose first cell is ID. With two or more
sentinels the cut is the second one; rows 1 to the cut (both catalogs
renamed) and rows after the cut. With exactly one sentinel at row 0,
sites is everything after it (renamed) and types is empty; with one
sentinel elsewhere, sites is the rows before and types the rows after
it, and neither frame has its columns renamed. With no sentinel both
catalogs are empty. The warnings the source logs are returned. -/
def splitVarios (dfv : DF) : Option (DF × DF) × List LogMsg :=
  match sentinelIdxs dfv with
  | _ :: i1 :: _ =>
    match (dfv.ilocRange 1 i1).setCols sedesCols,
          (dfv.ilocFrom (i1 + 1)).setCols tiposCols with
    | some s, some t => (some (s, t), [])
    | _, _ => (none, [])
  | [i0] =>
    if i0 = 0 then
      match (dfv.ilocFrom 1).setCols sedesCols with
      | some s => (some (s, ⟨tiposCols, []⟩), [LogMsg.warnOneSentinel])
      | none => (none, [LogMsg.warnOneSentinel])
    else
      (some (dfv.ilocRange 0 i0, dfv.ilocFrom (i0 + 1)), [LogMsg.warnOneSentinel])
  | [] => (some (⟨sedesCols, []⟩, ⟨tiposCols, []⟩), [LogMsg.warnNoSentinel])

/-- Cleaning of the types catalog before reconciliation (lines 61 to 66):
drop rows with a null id, keep rows whose id coerces to a number, cast
the id column to integers. -/
def cleanTipos (dfTipos : DF) : Option DF :=
  (dfTipos.dropnaCol "id_tipo_trx").bind fun t1 =>
    (t1.filterNumericCol "id_tipo_trx").bind fun t2 =>
      t2.astypeIntCol "id_tipo_trx"

/-- Description text of a synthesized catalog row (line 74). -/
def dummyDesc : String := "Tipo Desconocido (Sistema)"

/-- A synthesized catalog row for a missing code, aligned to the catalog
column schema as pd.concat aligns the dummy frame by column name. -/
def mkDummyRow (cols : List String) (m : Val) : List Val :=
  cols.map (fun c =>
    if c = "id_tipo_trx" then m
    else if c = "descripcion_tipo" then vStr dummyDesc
    else vNull)

/-- Stage 2 of transform_data (lines 57 to 76): referential-integrity
reconciliation. The referenced codes are the distinct raw values of the
third positional column of the transactions table; the catalog is
cleaned; every referenced non-null code absent from the cleaned catalog
is appended as a synthesized row, and a warning listing exactly those
codes is logged. -/
def reconcileTipos (dfTipos dfTrans : DF) : Option DF × List LogMsg :=
  match dfTrans.colPos? 2 with
  | none => (none, [])
  | some col2 =>
    let trxIds := dedup col2
    match cleanTipos dfTipos with
    | none => (none, [])
    | some t3 =>
      let catalogIds := t3.colD "id_tipo_trx"
      let missing := trxIds.filter (fun x => decide (x ∉ catalogIds ∧ x ≠ vNull))
      if missing.isEmpty then (some t3, [])
      else (some (t3.concatRows (missing.map (mkDummyRow t3.cols))),
            [LogMsg.warnOrphans missing])

/-- Stage 3 of transform_data (lines 79 to 80): distributor dimension,
a two-column projection of the recommendations source, deduplicated by
distributor id keeping the first row, then renamed. -/
def buildDist (dfRec : DF) : Option DF :=
  (dfRec.project ["IDDISTRIBUIDOR", "NOMBRE DISTRIBUIDOR"]).bind fun p =>
    (p.dropDupCol "IDDISTRIBUIDOR").bind fun d =>
      d.setCols ["id_distribuidor", "nombre_distribuidor"]

/-- Rename mapping applied to the base clients table (lines 85 to 89). -/
def clientesRename : List (String × String) :=
  [("IDCLIENTE", "id_cliente"), ("fechaafiliacion", "fecha_afiliacion"),
   ("fechaprimertrx", "fecha_primera_trx")]

/-- Columns projected from the recommendations source (line 91). -/
def recSubsetCols : List String :=
  ["IDCLIENTE", "IDDISTRIBUIDOR", "TELEFONO", "categoría", "recomendados"]

/-- Rename mapping applied after the merge (lines 101 to 105). -/
def mergedRename : List (String × String) :=
  [("IDDISTRIBUIDOR", "id_distribuidor"), ("TELEFONO", "telefono"),
   ("categoría", "categoria")]

/-- Stage 4 of transform_data (lines 85 to 106): client dimension. The
base client columns are renamed, a five-column projection of the
recommendations source is left-merged on the client id, the duplicate
key column is dropped when present, and joined columns are renamed. -/
def buildClientes (dfCli dfRec : DF) : Option DF :=
  (dfRec.project recSubsetCols).bind fun sub =>
    ((dfCli.renameCols clientesRename).mergeLeft sub "id_cliente"
        "IDCLIENTE").map fun m =>
      (if "IDCLIENTE" ∈ m.cols then m.dropCol "IDCLIENTE" else m).renameCols
        mergedRename

/-- Canonical fact-table column names assigned by position (line 108). -/
def factCols : List String :=
  ["id_cliente", "fecha_trx", "id_tipo_trx", "id_trx", "monto", "fee", "id_sede"]

/-- Date casting of the client dimension (lines 113 to 115). -/
def castClientes (df : DF) : Option DF :=
  (df.mapCol "fecha_afiliacion" toDatetime).bind fun d1 =>
    d1.mapCol "fecha_primera_trx" toDatetime

/-- Integer-key casting of the sites catalog (lines 119 to 122): drop
null ids, keep numeric-coercible ids, cast to integer. -/
def castSedes (df : DF) : Option DF :=
  (df.dropnaCol "id_sede").bind fun s1 =>
    (s1.filterNumericCol "id_sede").bind fun s2 =>
      s2.astypeIntCol "id_sede"

/-- The final type-coercion stage (lines 112 to 124) as one function of
the three frames it touches, composed of the same per-frame casts in
source order: client dates, fact transaction date, site ids, fact type
code. -/
def typeCastStage (cli trans sedes : DF) : Option (DF × DF × DF) :=
  (castClientes cli).bind fun c =>
    (trans.mapCol "fecha_trx" toDatetime).bind fun t1 =>
      (castSedes sedes).bind fun s =>
        (t1.astypeIntCol "id_tipo_trx").map fun t2 => (c, t2, s)

/-- Result of one transform run: the returned table mapping or the
propagated error, the final state of the caller object passed as
df_transacciones (which the source mutates in place by reassigning its
column names and recasting two of its columns), and the logged
warnings. -/
structure TResult where
  out : Except String (List (String × DF))
  transFinal : DF
  logs : List LogMsg
  deriving Repr

/-- The transform orchestrator, transform_data of src/transform.py:
catalog split, referential-integrity reconciliation, distributor and
client dimensions, positional renaming of the fact table, final type
casting, then the five-entry named mapping. Any failing step aborts the
whole transform with an error, leaving the caller df_transacciones
object in whatever state the completed in-place mutations produced. -/
def transform_data (dfClientes dfTransacciones dfVarios dfRecomendados : DF) :
    TResult :=
  match (splitVarios dfVarios).fst with
  | none => ⟨Except.error "transform", dfTransacciones, (splitVarios dfVarios).snd⟩
  | some (dfSedes, dfTipos) =>
    let logsA := (splitVarios dfVarios).snd ++ (reconcileTipos dfTipos dfTransacciones).snd
    match (reconcileTipos dfTipos dfTransacciones).fst with
    | none => ⟨Except.error "transform", dfTransacciones, logsA⟩
    | some dfTipos2 =>
      match buildDist dfRecomendados with
      | none => ⟨Except.error "transform", dfTransacciones, logsA⟩
      | some dfDist =>
        match buildClientes dfClientes dfRecomendados with
        | none => ⟨Except.error "transform", dfTransacciones, logsA⟩
        | some dfCliFin =>
          match dfTransacciones.setCols factCols with
          | none => ⟨Except.error "transform", dfTransacciones, logsA⟩
          | some trans1 =>
            match castClientes dfCliFin with
            | none => ⟨Except.error "transform", trans1, logsA⟩
            | some dfCliCast =>
              match trans1.mapCol "fecha_trx" toDatetime with
              | none => ⟨Except.error "transform", trans1, logsA⟩
              | some trans2 =>
                match castSedes dfSedes with
                | none => ⟨Except.error "transform", trans2, logsA⟩
                | some dfSedesCast =>
                  match trans2.astypeIntCol "id_tipo_trx" with
                  | none => ⟨Except.error "transform", trans2, logsA⟩
                  | some trans3 =>
                    ⟨Except.ok
                      [("dim_sedes", dfSedesCast),
                       ("dim_tipo_transaccion", dfTipos2),
                       ("dim_distribuidores", dfDist),
                       ("dim_clientes", dfCliCast),
                       ("fct_transacciones", trans3)],
                     trans3, logsA⟩

/-- Look up a table by name in the returned mapping. -/
def lookupTable (ts : List (String × DF)) (name : String) : DF :=
  match ts.find? (fun p => decide (p.fst = name)) with
  | some p => p.snd
  | none => ⟨[], []⟩

/-! ### Basic lemmas about cells, column lookup and deduplication -/

theorem cell_set_self (r : List Val) (i : Nat) (v : Val) (h : i < r.length) :
    cell (r.set i v) i = v := by
  simp [cell, List.getD_eq_getElem?_getD, List.getElem?_set_self h]

theorem cell_set_ne (r : List Val) {i j : Nat} (v : Val) (h : i ≠ j) :
    cell (r.set i v) j = cell r j := by
  simp [cell, List.getD_eq_getElem?_getD, List.getElem?_set_ne h]

theorem cell_of_le (r : List Val) (i : Nat) (h : r.length ≤ i) :
    cell r i = Val.vNull := by
  simp [cell, List.getD_eq_getElem?_getD, List.getElem?_eq_none h]

theorem set_cell_self (r : List Val) (i : Nat) : r.set i (cell r i) = r := by
  induction r generalizing i with
  | nil => rfl
  | cons x xs ih =>
    cases i with
    | zero => rfl
    | succ n =>
      simp only [cell, List.getD_cons_succ, List.set_cons_succ]
      exact congrArg (x :: ·) (ih n)

theorem colIdx_spec {c : String} {cols : List String} {i : Nat}
    (h : colIdx c cols = some i) : i < cols.length ∧ cols.getD i "" = c := by
  induction cols generalizing i with
  | nil => simp [colIdx] at h
  | cons x xs ih =>
    by_cases hx : x = c
    · simp only [colIdx, if_pos hx] at h
      cases h
      simpa using hx
    · simp only [colIdx, if_neg hx, Option.map_eq_some'] at h
      obtain ⟨j, hj, rfl⟩ := h
      obtain ⟨h1, h2⟩ := ih hj
      exact ⟨by simpa using h1, by simpa using h2⟩

theorem colIdx_ne {c c2 : String} {cols : List String} {i j : Nat}
    (hc : colIdx c cols = some i) (hc2 : colIdx c2 cols = some j)
    (hne : c ≠ c2) : i ≠ j := by
  intro hij
  exact hne (((colIdx_spec hc).2.symm.trans (by rw [hij]; exact (colIdx_spec hc2).2)))

theorem mem_dedupAux (v : Val) (xs : List Val) : ∀ seen : List Val,
    (v ∈ dedupAux seen xs ↔ v ∈ xs ∧ v ∉ seen) := by
  induction xs with
  | nil => intro seen; simp [dedupAux]
  | cons x xs ih =>
    intro seen
    by_cases hx : x ∈ seen
    · rw [dedupAux, if_pos hx, ih]
      constructor
      · rintro ⟨h1, h2⟩; exact ⟨List.mem_cons_of_mem _ h1, h2⟩
      · rintro ⟨h1, h2⟩
        rcases List.mem_cons.mp h1 with rfl | h1
        · exact absurd hx h2
        · exact ⟨h1, h2⟩
    · rw [dedupAux, if_neg hx]
      constructor
      · intro h
        rcases List.mem_cons.mp h with rfl | h
        · exact ⟨List.mem_cons_self _ _, hx⟩
        · obtain ⟨h1, h2⟩ := (ih _).mp h
          exact ⟨List.mem_cons_of_mem _ h1, fun hs => h2 (List.mem_cons_of_mem _ hs)⟩
      · rintro ⟨h1, h2⟩
        rcases List.mem_cons.mp h1 with rfl | h1
        · exact List.mem_cons_self _ _
        · by_cases hvx : v = x
          · subst hvx; exact List.mem_cons_self _ _
          · exact List.mem_cons_of_mem _
              ((ih _).mpr ⟨h1, fun hs => by
                rcases List.mem_cons.mp hs with h | h
                · exact hvx h
                · exact h2 h⟩)

theorem mem_dedup (v : Val) (xs : List Val) : v ∈ dedup xs ↔ v ∈ xs := by
  rw [dedup, mem_dedupAux]; simp

theorem nodup_dedupAux (xs : List Val) : ∀ seen : List Val,
    (dedupAux seen xs).Nodup := by
  induction xs with
  | nil => intro seen; simp [dedupAux]
  | cons x xs ih =>
    intro seen
    by_cases hx : x ∈ seen
    · rw [dedupAux, if_pos hx]; exact ih seen
    · rw [dedupAux, if_neg hx, List.nodup_cons]
      refine ⟨fun hmem => ?_, ih _⟩
      exact ((mem_dedupAux x xs _).mp hmem).2 (List.mem_cons_self _ _)

theorem nodup_dedup (xs : List Val) : (dedup xs).Nodup := nodup_dedupAux xs []

/-- Spec-side characterization of first-encounter deduplication: fold the
list left to right, appending each value the first time it is seen. -/
def firstEncounter (xs : List Val) : List Val :=
  xs.foldl (fun acc x => if x ∈ acc then acc else acc ++ [x]) []

theorem dedupAux_foldl (xs : List Val) : ∀ seen acc : List Val,
    (∀ v, v ∈ seen ↔ v ∈ acc) →
    acc ++ dedupAux seen xs =
      xs.foldl (fun a x => if x ∈ a then a else a ++ [x]) acc := by
  induction xs with
  | nil => intro seen acc h; simp [dedupAux]
  | cons x xs ih =>
    intro seen acc h
    by_cases hx : x ∈ seen
    · have hx2 : x ∈ acc := (h x).mp hx
      rw [dedupAux, if_pos hx, List.foldl_cons, if_pos hx2]
      exact ih seen acc h
    · have hx2 : x ∉ acc := fun hc => hx ((h x).mpr hc)
      rw [dedupAux, if_neg hx, List.foldl_cons, if_neg hx2]
      rw [← ih (x :: seen) (acc ++ [x]) (fun v => by
        simp only [List.mem_cons, List.mem_append, List.mem_singleton, h v]
        tauto)]
      simp

theorem dedup_eq_firstEncounter (xs : List Val) : dedup xs = firstEncounter xs := by
  simpa [dedup, firstEncounter] using dedupAux_foldl xs [] [] (by simp)

theorem mem_sentinelIdxs (df : DF) (i : Nat) :
    i ∈ sentinelIdxs df ↔
      i < df.rows.length ∧ cell (df.rows.getD i []) 0 = Val.vStr "ID" := by
  simp [sentinelIdxs, List.mem_filter, List.mem_range]

theorem sentinelIdxs_pairwise (df : DF) : (sentinelIdxs df).Pairwise (· < ·) :=
  (List.pairwise_lt_range _).filter _

/-! ### Lemmas about the column operations -/

theorem colD_of_idx {df : DF} {c : String} {i : Nat} (h : df.idx c = some i) :
    df.colD c = df.rows.map (fun r => cell r i) := by
  simp [DF.colD, h]

theorem dropnaCol_parts {df out : DF} {c : String}
    (h : df.dropnaCol c = some out) :
    ∃ i, df.idx c = some i ∧ out.cols = df.cols ∧
      out.rows = df.rows.filter (fun r => decide (cell r i ≠ Val.vNull)) := by
  rw [DF.dropnaCol, Option.map_eq_some'] at h
  obtain ⟨i, hi, rfl⟩ := h
  exact ⟨i, hi, rfl, rfl⟩

theorem filterNumericCol_parts {df out : DF} {c : String}
    (h : df.filterNumericCol c = some out) :
    ∃ i, df.idx c = some i ∧ out.cols = df.cols ∧
      out.rows = df.rows.filter (fun r => (toNumeric? (cell r i)).isSome) := by
  rw [DF.filterNumericCol, Option.map_eq_some'] at h
  obtain ⟨i, hi, rfl⟩ := h
  exact ⟨i, hi, rfl, rfl⟩

theorem mapCol_parts {df out : DF} {c : String} {f : Val → Val}
    (h : df.mapCol c f = some out) :
    ∃ i, df.idx c = some i ∧ out.cols = df.cols ∧
      out.rows = df.rows.map (fun r => r.set i (f (cell r i))) := by
  rw [DF.mapCol, Option.map_eq_some'] at h
  obtain ⟨i, hi, rfl⟩ := h
  exact ⟨i, hi, rfl, rfl⟩

theorem astypeIntCol_parts {df out : DF} {c : String}
    (h : df.astypeIntCol c = some out) :
    ∃ i, df.idx c = some i ∧ out.cols = df.cols ∧
      castIntRows i df.rows = some out.rows := by
  rw [DF.astypeIntCol] at h
  cases hi : df.idx c with
  | none => rw [hi] at h; exact absurd h (by simp)
  | some i =>
    rw [hi, Option.map_eq_some'] at h
    obtain ⟨rs, hrs, rfl⟩ := h
    exact ⟨i, rfl, rfl, hrs⟩

theorem castIntRows_length {i : Nat} {rs out : List (List Val)}
    (h : castIntRows i rs = some out) : out.length = rs.length := by
  induction rs generalizing out with
  | nil => rw [castIntRows] at h; cases h; rfl
  | cons r rs ih =>
    rw [castIntRows] at h
    cases hn : astypeInt? (cell r i) with
    | none => rw [hn] at h; exact absurd h (by simp)
    | some n =>
      rw [hn, Option.map_eq_some'] at h
      obtain ⟨rest, hrest, rfl⟩ := h
      simp [ih hrest]

theorem astypeInt_ne_none_of_some {v : Val} {n : Int}
    (h : astypeInt? v = some n) : v ≠ Val.vNull := by
  intro hv; rw [hv] at h; exact absurd h (by simp [astypeInt?])

theorem castIntRows_mem_vInt {i : Nat} {rs out : List (List Val)}
    (h : castIntRows i rs = some out) :
    ∀ r2 ∈ out, ∃ n, cell r2 i = Val.vInt n ∧ i < r2.length := by
  induction rs generalizing out with
  | nil => rw [castIntRows] at h; cases h; simp
  | cons r rs ih =>
    rw [castIntRows] at h
    cases hn : astypeInt? (cell r i) with
    | none => rw [hn] at h; exact absurd h (by simp)
    | some n =>
      rw [hn, Option.map_eq_some'] at h
      obtain ⟨rest, hrest, rfl⟩ := h
      have hlt : i < r.length := by
        by_contra hge
        push_neg at hge
        exact astypeInt_ne_none_of_some hn (cell_of_le r i hge)
      intro r2 hr2
      rcases List.mem_cons.mp hr2 with rfl | hr2
      · exact ⟨n, cell_set_self r i _ hlt, by simpa using hlt⟩
      · exact ih hrest r2 hr2

theorem castIntRows_mem_src {i : Nat} {rs out : List (List Val)}
    (h : castIntRows i rs = some out) :
    ∀ r2 ∈ out, ∃ r ∈ rs, ∃ n, r2 = r.set i (Val.vInt n) := by
  induction rs generalizing out with
  | nil => rw [castIntRows] at h; cases h; simp
  | cons r rs ih =>
    rw [castIntRows] at h
    cases hn : astypeInt? (cell r i) with
    | none => rw [hn] at h; exact absurd h (by simp)
    | some n =>
      rw [hn, Option.map_eq_some'] at h
      obtain ⟨rest, hrest, rfl⟩ := h
      intro r2 hr2
      rcases List.mem_cons.mp hr2 with rfl | hr2
      · exact ⟨r, List.mem_cons_self _ _, n, rfl⟩
      · obtain ⟨r0, hr0, n0, hshape⟩ := ih hrest r2 hr2
        exact ⟨r0, List.mem_cons_of_mem _ hr0, n0, hshape⟩

theorem castIntRows_fix {i : Nat} {rs : List (List Val)}
    (h : ∀ r ∈ rs, ∃ n, cell r i = Val.vInt n ∧ i < r.length) :
    castIntRows i rs = some rs := by
  induction rs with
  | nil => rfl
  | cons r rs ih =>
    obtain ⟨n, hn, hlt⟩ := h r (List.mem_cons_self _ _)
    rw [castIntRows, hn]
    show (castIntRows i rs).map _ = _
    rw [ih (fun r2 hr2 => h r2 (List.mem_cons_of_mem _ hr2))]
    simp only [Option.map_some']
    rw [← hn, set_cell_self]

theorem castIntRows_idem {i : Nat} {rs out : List (List Val)}
    (h : castIntRows i rs = some out) : castIntRows i out = some out :=
  castIntRows_fix (castIntRows_mem_vInt h)

/-! ### Fixed columns and idempotence of the casting operations -/

/-- The named column exists and every cell in it is a fixed point of f
(rows too short to reach the column are untouched by a column write). -/
def colFixed (df : DF) (c : String) (f : Val → Val) : Prop :=
  ∃ i, df.idx c = some i ∧
    ∀ r ∈ df.rows, f (cell r i) = cell r i ∨ r.length ≤ i

theorem mapCol_of_colFixed {df : DF} {c : String} {f : Val → Val}
    (h : colFixed df c f) : df.mapCol c f = some df := by
  obtain ⟨i, hi, hfix⟩ := h
  rw [DF.mapCol, hi]
  simp only [Option.map_some', Option.some.injEq]
  cases df with
  | mk cols rows =>
    simp only [DF.mk.injEq, true_and]
    conv_rhs => rw [← List.map_id rows]
    refine List.map_congr_left (fun r hr => ?_)
    rcases hfix r hr with hl | hlen
    · rw [hl, set_cell_self, id]
    · rw [List.set_eq_of_length_le hlen, id]

theorem colFixed_of_mapCol {df out : DF} {c : String} {f : Val → Val}
    (hidem : ∀ v, f (f v) = f v)
    (h : df.mapCol c f = some out) : colFixed out c f := by
  obtain ⟨i, hi, hcols, hrows⟩ := mapCol_parts h
  refine ⟨i, by show colIdx c out.cols = some i; rw [hcols]; exact hi, ?_⟩
  intro r2 hr2
  rw [hrows] at hr2
  obtain ⟨r, hr, rfl⟩ := List.mem_map.mp hr2
  by_cases hlt : i < r.length
  · left
    rw [cell_set_self _ _ _ hlt, hidem]
  · right
    push_neg at hlt
    simpa [List.length_set] using hlt

theorem colFixed_mapCol_ne {df out : DF} {c c2 : String} {f g : Val → Val}
    (hfix : colFixed df c f) (h : df.mapCol c2 g = some out) (hne : c ≠ c2) :
    colFixed out c f := by
  obtain ⟨i, hi, hf⟩ := hfix
  obtain ⟨j, hj, hcols, hrows⟩ := mapCol_parts h
  have hij : j ≠ i := (colIdx_ne hi hj hne).symm
  refine ⟨i, by show colIdx c out.cols = some i; rw [hcols]; exact hi, ?_⟩
  intro r2 hr2
  rw [hrows] at hr2
  obtain ⟨r, hr, rfl⟩ := List.mem_map.mp hr2
  rcases hf r hr with hl | hlen
  · left
    rw [cell_set_ne _ _ hij, hl]
  · right
    simpa [List.length_set] using hlen

theorem colFixed_astypeIntCol_ne {df out : DF} {c c2 : String} {f : Val → Val}
    (hfix : colFixed df c f) (h : df.astypeIntCol c2 = some out) (hne : c ≠ c2) :
    colFixed out c f := by
  obtain ⟨i, hi, hf⟩ := hfix
  obtain ⟨j, hj, hcols, hcast⟩ := astypeIntCol_parts h
  have hij : j ≠ i := (colIdx_ne hi hj hne).symm
  refine ⟨i, by show colIdx c out.cols = some i; rw [hcols]; exact hi, ?_⟩
  intro r2 hr2
  obtain ⟨r, hr, n, rfl⟩ := castIntRows_mem_src hcast r2 hr2
  rcases hf r hr with hl | hlen
  · left
    rw [cell_set_ne _ _ hij, hl]
  · right
    simpa [List.length_set] using hlen

theorem toDatetime_idem (v : Val) : toDatetime (toDatetime v) = toDatetime v := by
  cases v with
  | vDate d => rfl
  | vNull => rfl
  | vInt n => rfl
  | vStr s =>
    cases h : parseDate? s with
    | none => simp [toDatetime, h]
    | some d => simp [toDatetime, h]

theorem dropnaCol_fix {df : DF} {c : String} {i : Nat} (hi : df.idx c = some i)
    (h : ∀ r ∈ df.rows, cell r i ≠ Val.vNull) : df.dropnaCol c = some df := by
  rw [DF.dropnaCol, hi]
  simp only [Option.map_some', Option.some.injEq]
  cases df with
  | mk cols rows =>
    simp only [DF.mk.injEq, true_and]
    exact List.filter_eq_self.mpr (fun r hr => decide_eq_true (h r hr))

theorem filterNumericCol_fix {df : DF} {c : String} {i : Nat}
    (hi : df.idx c = some i)
    (h : ∀ r ∈ df.rows, (toNumeric? (cell r i)).isSome = true) :
    df.filterNumericCol c = some df := by
  rw [DF.filterNumericCol, hi]
  simp only [Option.map_some', Option.some.injEq]
  cases df with
  | mk cols rows =>
    simp only [DF.mk.injEq, true_and]
    exact List.filter_eq_self.mpr h

theorem astypeIntCol_fix {df : DF} {c : String} {i : Nat}
    (hi : df.idx c = some i)
    (h : ∀ r ∈ df.rows, ∃ n, cell r i = Val.vInt n ∧ i < r.length) :
    df.astypeIntCol c = some df := by
  rw [DF.astypeIntCol, hi]
  show (castIntRows i df.rows).map (fun rs => DF.mk df.cols rs) = some df
  rw [castIntRows_fix h]
  rfl

theorem castClientes_idem {df out : DF} (h : castClientes df = some out) :
    castClientes out = some out := by
  rw [castClientes, Option.bind_eq_some] at h
  obtain ⟨d1, h1, h2⟩ := h
  have fixA : colFixed out "fecha_afiliacion" toDatetime :=
    colFixed_mapCol_ne (colFixed_of_mapCol toDatetime_idem h1) h2 (by decide)
  have fixB : colFixed out "fecha_primera_trx" toDatetime :=
    colFixed_of_mapCol toDatetime_idem h2
  rw [castClientes, Option.bind_eq_some]
  exact ⟨out, mapCol_of_colFixed fixA, mapCol_of_colFixed fixB⟩

theorem castSedes_idem {df out : DF} (h : castSedes df = some out) :
    castSedes out = some out := by
  rw [castSedes, Option.bind_eq_some] at h
  obtain ⟨s1, h1, h⟩ := h
  rw [Option.bind_eq_some] at h
  obtain ⟨s2, h2, h3⟩ := h
  obtain ⟨i, hi, hcols3, hcast⟩ := astypeIntCol_parts h3
  have hiOut : out.idx "id_sede" = some i := by
    show colIdx "id_sede" out.cols = some i
    rw [hcols3]; exact hi
  have hcells := castIntRows_mem_vInt hcast
  rw [castSedes, Option.bind_eq_some]
  refine ⟨out, dropnaCol_fix hiOut (fun r hr => ?_), ?_⟩
  · obtain ⟨n, hn, _⟩ := hcells r hr
    rw [hn]
    simp
  rw [Option.bind_eq_some]
  refine ⟨out, filterNumericCol_fix hiOut (fun r hr => ?_), ?_⟩
  · obtain ⟨n, hn, _⟩ := hcells r hr
    rw [hn]
    simp [toNumeric?]
  exact astypeIntCol_fix hiOut hcells


/-! ### Lemmas about catalog cleaning and reconciliation -/

theorem cleanTipos_parts {dfT t3 : DF} (h : cleanTipos dfT = some t3) :
    ∃ i, colIdx "id_tipo_trx" dfT.cols = some i ∧ t3.cols = dfT.cols ∧
      ∀ r ∈ t3.rows, ∃ n, cell r i = Val.vInt n ∧ i < r.length := by
  rw [cleanTipos, Option.bind_eq_some] at h
  obtain ⟨t1, h1, h⟩ := h
  rw [Option.bind_eq_some] at h
  obtain ⟨t2, h2, h3⟩ := h
  obtain ⟨i, hi1, hc1, hr1⟩ := dropnaCol_parts h1
  obtain ⟨i2, hi2, hc2, hr2⟩ := filterNumericCol_parts h2
  obtain ⟨i3, hi3, hc3, hcast⟩ := astypeIntCol_parts h3
  have e3 : t2.idx "id_tipo_trx" = some i := by
    show colIdx "id_tipo_trx" t2.cols = some i
    rw [hc2, hc1]
    exact hi1
  have e3i : i3 = i := Option.some.inj (hi3.symm.trans e3)
  rw [e3i] at hcast
  exact ⟨i, hi1, by rw [hc3, hc2, hc1], castIntRows_mem_vInt hcast⟩

theorem cell_mkDummyRow_id {cols : List String} {i : Nat} (m : Val)
    (hi : colIdx "id_tipo_trx" cols = some i) :
    cell (mkDummyRow cols m) i = m := by
  obtain ⟨hlt, hget⟩ := colIdx_spec hi
  rw [mkDummyRow, cell, List.getD_eq_getElem _ _ (by simpa using hlt),
    List.getElem_map]
  have hcol : cols[i] = "id_tipo_trx" := by
    rw [← List.getD_eq_getElem cols "" hlt]; exact hget
  rw [hcol]
  simp

theorem cell_mkDummyRow_desc {cols : List String} {j : Nat} (m : Val)
    (hj : colIdx "descripcion_tipo" cols = some j) :
    cell (mkDummyRow cols m) j = Val.vStr dummyDesc := by
  obtain ⟨hlt, hget⟩ := colIdx_spec hj
  rw [mkDummyRow, cell, List.getD_eq_getElem _ _ (by simpa using hlt),
    List.getElem_map]
  have hcol : cols[j] = "descripcion_tipo" := by
    rw [← List.getD_eq_getElem cols "" hlt]; exact hget
  rw [hcol]
  simp

theorem concatRows_idx (df : DF) (newRows : List (List Val)) (c : String) :
    (df.concatRows newRows).idx c = df.idx c := rfl

theorem colD_concatRows {df : DF} {c : String} {i : Nat}
    (hi : df.idx c = some i) (newRows : List (List Val)) :
    (df.concatRows newRows).colD c =
      df.colD c ++ newRows.map (fun r => cell r i) := by
  rw [colD_of_idx (by rw [concatRows_idx]; exact hi), colD_of_idx hi]
  show (df.rows ++ newRows).map _ = _
  rw [List.map_append]

theorem reconcile_parts {dfT dfTr out : DF} {logs : List LogMsg}
    (h : reconcileTipos dfT dfTr = (some out, logs)) :
    ∃ col2 t3, dfTr.colPos? 2 = some col2 ∧ cleanTipos dfT = some t3 ∧
      ((dedup col2).filter
          (fun x => decide (x ∉ t3.colD "id_tipo_trx" ∧ x ≠ Val.vNull)) = [] ∧
        out = t3 ∧ logs = [] ∨
       (dedup col2).filter
          (fun x => decide (x ∉ t3.colD "id_tipo_trx" ∧ x ≠ Val.vNull)) ≠ [] ∧
        out = t3.concatRows
          (((dedup col2).filter
              (fun x => decide (x ∉ t3.colD "id_tipo_trx" ∧ x ≠ Val.vNull))).map
            (mkDummyRow t3.cols)) ∧
        logs = [LogMsg.warnOrphans
          ((dedup col2).filter
            (fun x => decide (x ∉ t3.colD "id_tipo_trx" ∧ x ≠ Val.vNull)))]) := by
  rw [reconcileTipos] at h
  cases hcp : dfTr.colPos? 2 with
  | none => rw [hcp] at h; simp at h
  | some col2 =>
    rw [hcp] at h
    cases hct : cleanTipos dfT with
    | none => rw [hct] at h; simp at h
    | some t3 =>
      rw [hct] at h
      simp only [] at h
      refine ⟨col2, t3, rfl, rfl, ?_⟩
      by_cases hm : (dedup col2).filter
          (fun x => decide (x ∉ t3.colD "id_tipo_trx" ∧ x ≠ Val.vNull)) = []
      · rw [if_pos (show _ = true by rw [hm]; rfl)] at h
        injection h with h1 h2
        injection h1 with h1
        exact Or.inl ⟨hm, h1.symm, h2.symm⟩
      · rw [if_neg (fun hc => hm (List.isEmpty_iff.mp hc))] at h
        injection h with h1 h2
        injection h1 with h1
        exact Or.inr ⟨hm, h1.symm, h2.symm⟩



theorem reconcile_superset {dfT dfTr out : DF} {logs : List LogMsg}
    (h : reconcileTipos dfT dfTr = (some out, logs)) :
    ∀ v ∈ (dfTr.colPos? 2).getD [], v ≠ Val.vNull →
      v ∈ out.colD "id_tipo_trx" := by
  obtain ⟨col2, t3, hcp, hct, hcases⟩ := reconcile_parts h
  obtain ⟨i, hi, hcols, _⟩ := cleanTipos_parts hct
  have hit3 : colIdx "id_tipo_trx" t3.cols = some i := by
    rw [hcols]
    exact hi
  intro v hv hnn
  rw [hcp] at hv
  simp only [Option.getD_some] at hv
  by_cases hcat : v ∈ t3.colD "id_tipo_trx"
  · rcases hcases with ⟨hm, rfl, hl⟩ | ⟨hm, rfl, hl⟩
    · exact hcat
    · rw [colD_concatRows hit3]
      exact List.mem_append_left _ hcat
  · have hvm : v ∈ (dedup col2).filter
        (fun x => decide (x ∉ t3.colD "id_tipo_trx" ∧ x ≠ Val.vNull)) :=
      List.mem_filter.mpr ⟨(mem_dedup v col2).mpr hv, decide_eq_true ⟨hcat, hnn⟩⟩
    rcases hcases with ⟨hm, rfl, hl⟩ | ⟨hm, rfl, hl⟩
    · rw [hm] at hvm
      exact absurd hvm (List.not_mem_nil v)
    · rw [colD_concatRows hit3]
      refine List.mem_append_right _ ?_
      rw [List.map_map]
      exact List.mem_map.mpr ⟨v, hvm, cell_mkDummyRow_id v hit3⟩

theorem setCols_parts {df out : DF} {names : List String}
    (h : df.setCols names = some out) :
    out.cols = names ∧ out.rows = df.rows ∧ names.length = df.cols.length := by
  by_cases hc : names.length = df.cols.length
  · rw [DF.setCols, if_pos hc] at h
    cases h
    exact ⟨rfl, rfl, hc⟩
  · rw [DF.setCols, if_neg hc] at h
    exact absurd h (by simp)

theorem transform_ok_inv {a b c d : DF} {ts : List (String × DF)}
    (h : (transform_data a b c d).out = Except.ok ts) :
    ∃ dfS dfT dfT2 dfDist dfCli t1 dfCliC t2 dfSC t3,
      (splitVarios c).fst = some (dfS, dfT) ∧
      (reconcileTipos dfT b).fst = some dfT2 ∧
      buildDist d = some dfDist ∧
      buildClientes a d = some dfCli ∧
      b.setCols factCols = some t1 ∧
      castClientes dfCli = some dfCliC ∧
      t1.mapCol "fecha_trx" toDatetime = some t2 ∧
      castSedes dfS = some dfSC ∧
      t2.astypeIntCol "id_tipo_trx" = some t3 ∧
      ts = [("dim_sedes", dfSC), ("dim_tipo_transaccion", dfT2),
            ("dim_distribuidores", dfDist), ("dim_clientes", dfCliC),
            ("fct_transacciones", t3)] := by
  unfold transform_data at h
  repeat' split at h
  any_goals exact Except.noConfusion h
  rename_i x8 dfS dfT hsplit x7 dfT2 hrec x6 dfDist hdist x5 dfCli hcli x4 t1
    hset x3 dfCliC hcastc x2 t2 hmap x1 dfSC hsedes x0 t3 hast
  refine ⟨dfS, dfT, dfT2, dfDist, dfCli, t1, dfCliC, t2, dfSC, t3,
    hsplit, hrec, hdist, hcli, hset, hcastc, hmap, hsedes, hast, ?_⟩
  exact (Except.ok.inj h).symm


/-! ### Claim C1 and C6 -/

/-- C1: after reconciliation, every non-null transaction-type code
appearing in the third positional column of the transactions table is
present in the id_tipo_trx column of the emitted dim_tipo_transaccion
table, and no transaction row is dropped or rejected: the emitted fact
table has exactly as many rows as the input transactions table. -/
theorem c1_referenced_codes_in_dim (a b c d : DF) (ts : List (String × DF))
    (h : (transform_data a b c d).out = Except.ok ts) :
    (∀ v ∈ (b.colPos? 2).getD [], v ≠ Val.vNull →
      v ∈ (lookupTable ts "dim_tipo_transaccion").colD "id_tipo_trx") ∧
    (lookupTable ts "fct_transacciones").rows.length = b.rows.length := by
  obtain ⟨dfS, dfT, dfT2, dfDist, dfCli, t1, dfCliC, t2, dfSC, t3, hsplit,
    hrec, hdist, hcli, hset, hcastc, hmap, hsedes, hast, rfl⟩ :=
    transform_ok_inv h
  have hpair : reconcileTipos dfT b =
      (some dfT2, (reconcileTipos dfT b).snd) := by
    rw [← hrec]
  constructor
  · intro v hv hnn
    exact reconcile_superset hpair v hv hnn
  · show t3.rows.length = b.rows.length
    obtain ⟨i, hi, hcols, hcast⟩ := astypeIntCol_parts hast
    obtain ⟨j, hj, hcols2, hrows2⟩ := mapCol_parts hmap
    obtain ⟨hc1, hr1, hl1⟩ := setCols_parts hset
    rw [castIntRows_length hcast, hrows2, List.length_map, hr1]

/-- C6: the transform is all or nothing. For every input quadruple, the
run either surfaces an error to the caller or returns the complete
five-entry named mapping; no partially built output mapping is ever
returned. -/
theorem c6_all_or_nothing (a b c d : DF) :
    (∃ e, (transform_data a b c d).out = Except.error e) ∨
    (∃ ts, (transform_data a b c d).out = Except.ok ts ∧
      ts.map Prod.fst = ["dim_sedes", "dim_tipo_transaccion",
        "dim_distribuidores", "dim_clientes", "fct_transacciones"]) := by
  cases hout : (transform_data a b c d).out with
  | error e => exact Or.inl ⟨e, rfl⟩
  | ok ts =>
    refine Or.inr ⟨ts, rfl, ?_⟩
    obtain ⟨dfS, dfT, dfT2, dfDist, dfCli, t1, dfCliC, t2, dfSC, t3, hsplit,
      hrec, hdist, hcli, hset, hcastc, hmap, hsedes, hast, rfl⟩ :=
      transform_ok_inv hout
    rfl

/-! ### Concrete inputs for the witnesses -/

/-- Example clients table in the canonical input shape. -/
def cliA : DF := ⟨["IDCLIENTE", "fechaafiliacion", "fechaprimertrx"],
  [[vInt 5, vStr "2024-01-01", vNull]]⟩

/-- Example transactions table: seven positional columns, referencing
type codes 99 (absent from the catalog) and 10 (present). -/
def trxA : DF := ⟨["a", "b", "c", "d", "e", "f", "g"],
  [[vInt 5, vStr "2024-01-02", vInt 99, vInt 1, vInt 100, vInt 2, vInt 1],
   [vInt 5, vStr "2024-01-03", vInt 10, vInt 2, vInt 50, vInt 1, vInt 1]]⟩

/-- Example mixed catalog sheet with two sentinel rows. -/
def varA : DF := ⟨["0", "1"],
  [[vStr "ID", vStr "x"], [vInt 1, vStr "Site A"], [vInt 2, vStr "Site B"],
   [vStr "ID", vStr "y"], [vInt 10, vStr "Cash"], [vInt 20, vStr "Card"]]⟩

/-- Example recommendations table. -/
def recA : DF :=
  ⟨["IDCLIENTE", "IDDISTRIBUIDOR", "NOMBRE DISTRIBUIDOR", "TELEFONO",
    "categoría", "recomendados"],
   [[vInt 5, vInt 7, vStr "D", vStr "555", vStr "A", vInt 2]]⟩

/-- The mapping produced by the transform on the example inputs. -/
def tsA : List (String × DF) :=
  [("dim_sedes", ⟨["id_sede", "nombre_sede"],
     [[vInt 1, vStr "Site A"], [vInt 2, vStr "Site B"]]⟩),
   ("dim_tipo_transaccion", ⟨["id_tipo_trx", "descripcion_tipo"],
     [[vInt 10, vStr "Cash"], [vInt 20, vStr "Card"],
      [vInt 99, vStr "Tipo Desconocido (Sistema)"]]⟩),
   ("dim_distribuidores", ⟨["id_distribuidor", "nombre_distribuidor"],
     [[vInt 7, vStr "D"]]⟩),
   ("dim_clientes", ⟨["id_cliente", "fecha_afiliacion", "fecha_primera_trx",
      "id_distribuidor", "telefono", "categoria", "recomendados"],
     [[vInt 5, vDate 20240101, vNull, vInt 7, vStr "555", vStr "A",
       vInt 2]]⟩),
   ("fct_transacciones", ⟨["id_cliente", "fecha_trx", "id_tipo_trx",
      "id_trx", "monto", "fee", "id_sede"],
     [[vInt 5, vDate 20240102, vInt 99, vInt 1, vInt 100, vInt 2, vInt 1],
      [vInt 5, vDate 20240103, vInt 10, vInt 2, vInt 50, vInt 1,
       vInt 1]]⟩)]

theorem c1_witness :
    (∀ v ∈ (trxA.colPos? 2).getD [], v ≠ Val.vNull →
      v ∈ (lookupTable tsA "dim_tipo_transaccion").colD "id_tipo_trx") ∧
    (lookupTable tsA "fct_transacciones").rows.length = trxA.rows.length :=
  c1_referenced_codes_in_dim cliA trxA varA recA tsA (by with_unfolding_all rfl)


/-! ### Claim C2: the catalog split with two or more sentinels -/

/-- Mixed input whose first sentinel row is not row 0. -/
def cexVarios : DF := ⟨["0", "1"],
  [[vStr "a", vStr "b"], [vStr "ID", vStr "x"], [vInt 1, vStr "s"],
   [vStr "ID", vStr "y"], [vInt 10, vStr "t"]]⟩

/-- C2 counterexample: on a mixed input with two sentinel rows at indexes
1 and 3, the data row 0 reaches neither output although it is not a
sentinel row, so the claimed no-row-loss property fails as stated for
inputs whose first sentinel is not at row 0. -/
theorem c2_counterexample :
    (splitVarios cexVarios).fst =
      some (⟨sedesCols, [[vStr "ID", vStr "x"], [vInt 1, vStr "s"]]⟩,
            ⟨tiposCols, [[vInt 10, vStr "t"]]⟩) ∧
    [vStr "a", vStr "b"] ∈ cexVarios.rows ∧
    cell [vStr "a", vStr "b"] 0 ≠ vStr "ID" ∧
    [vStr "a", vStr "b"] ∉
      (⟨sedesCols, [[vStr "ID", vStr "x"], [vInt 1, vStr "s"]]⟩ : DF).rows ∧
    [vStr "a", vStr "b"] ∉ (⟨tiposCols, [[vInt 10, vStr "t"]]⟩ : DF).rows := by
  refine ⟨by with_unfolding_all rfl, ?_, ?_, ?_, ?_⟩ <;> decide

/-- C2 (amended): for every mixed input whose sentinel list starts with
row 0, the cut point is the second sentinel index, the sites table is
exactly the rows from index 1 up to the cut with the site column names,
the types table is exactly the rows after the cut with the type column
names, and the input rows decompose as the head sentinel row, the sites
rows, the cut sentinel row and the types rows: no other row is lost or
duplicated. -/
theorem c2_split_second_sentinel (dfv s t : DF) (i1 : Nat) (rest : List Nat)
    (hidx : sentinelIdxs dfv = 0 :: i1 :: rest)
    (h : (splitVarios dfv).fst = some (s, t)) :
    s.cols = sedesCols ∧ t.cols = tiposCols ∧
    s.rows = (dfv.rows.drop 1).take (i1 - 1) ∧
    t.rows = dfv.rows.drop (i1 + 1) ∧
    dfv.rows = dfv.rows.take 1 ++ s.rows ++
      (dfv.rows.drop i1).take 1 ++ t.rows ∧
    cell (dfv.rows.getD 0 []) 0 = vStr "ID" ∧
    cell (dfv.rows.getD i1 []) 0 = vStr "ID" := by
  have h0 : (0 : Nat) ∈ sentinelIdxs dfv := by rw [hidx]; simp
  have h1 : i1 ∈ sentinelIdxs dfv := by rw [hidx]; simp
  obtain ⟨h0lt, h0cell⟩ := (mem_sentinelIdxs dfv 0).mp h0
  obtain ⟨h1lt, h1cell⟩ := (mem_sentinelIdxs dfv i1).mp h1
  have hpos : 0 < i1 := by
    have hpw := sentinelIdxs_pairwise dfv
    rw [hidx] at hpw
    exact (List.pairwise_cons.mp hpw).1 i1 (by simp)
  have hsv : splitVarios dfv =
      match (dfv.ilocRange 1 i1).setCols sedesCols,
            (dfv.ilocFrom (i1 + 1)).setCols tiposCols with
      | some s0, some t0 => (some (s0, t0), [])
      | _, _ => (none, []) := by
    rw [splitVarios, hidx]
  rw [hsv] at h
  cases hs : (dfv.ilocRange 1 i1).setCols sedesCols with
  | none => rw [hs] at h; simp at h
  | some s0 =>
    cases ht : (dfv.ilocFrom (i1 + 1)).setCols tiposCols with
    | none => rw [hs, ht] at h; simp at h
    | some t0 =>
      rw [hs, ht] at h
      replace h : some (s0, t0) = some (s, t) := h
      injection h with h
      injection h with hseq hteq
      subst hseq; subst hteq
      obtain ⟨hscols, hsrows, hslen⟩ := setCols_parts hs
      obtain ⟨htcols, htrows, htlen⟩ := setCols_parts ht
      have hsr : s0.rows = (dfv.rows.drop 1).take (i1 - 1) := by
        rw [hsrows]; rfl
      have htr : t0.rows = dfv.rows.drop (i1 + 1) := by
        rw [htrows]; rfl
      refine ⟨hscols, htcols, hsr, htr, ?_, h0cell, h1cell⟩
      have e1 : (dfv.rows.drop 1).drop (i1 - 1) = dfv.rows.drop i1 := by
        rw [List.drop_drop]
        congr 1
        omega
      have e2 : (dfv.rows.drop i1).drop 1 = dfv.rows.drop (i1 + 1) := by
        rw [List.drop_drop]
      rw [hsr, htr, ← e2]
      simp only [List.append_assoc]
      rw [List.take_append_drop 1 (dfv.rows.drop i1), ← e1,
        List.take_append_drop (i1 - 1) (dfv.rows.drop 1),
        List.take_append_drop 1 dfv.rows]

/-- Sites table of the example split. -/
def sedesA : DF :=
  ⟨sedesCols, [[vInt 1, vStr "Site A"], [vInt 2, vStr "Site B"]]⟩

/-- Types table of the example split. -/
def tiposA : DF :=
  ⟨tiposCols, [[vInt 10, vStr "Cash"], [vInt 20, vStr "Card"]]⟩

theorem c2_witness :
    sedesA.cols = sedesCols ∧ tiposA.cols = tiposCols ∧
    sedesA.rows = (varA.rows.drop 1).take (3 - 1) ∧
    tiposA.rows = varA.rows.drop (3 + 1) ∧
    varA.rows = varA.rows.take 1 ++ sedesA.rows ++
      (varA.rows.drop 3).take 1 ++ tiposA.rows ∧
    cell (varA.rows.getD 0 []) 0 = vStr "ID" ∧
    cell (varA.rows.getD 3 []) 0 = vStr "ID" :=
  c2_split_second_sentinel varA sedesA tiposA 3 []
    (by with_unfolding_all rfl) (by with_unfolding_all rfl)

/-! ### Claim C3: the single-sentinel fallback -/

/-- Mixed input with exactly one sentinel row, at index 1. -/
def varB : DF := ⟨["0", "1"],
  [[vInt 1, vStr "A"], [vStr "ID", vStr "x"], [vInt 10, vStr "C"]]⟩

/-- C3: evidence of the code bug. On a single-sentinel input with the
sentinel away from row 0, the splitter itself does not fail and returns
the rows before and after the sentinel, but it leaves both tables with
their original column names, so the types table has no id_tipo_trx
column and the subsequent reconciliation stage aborts the whole
transform with an error instead of completing with degraded catalogs. -/
theorem c3_fallback_single_sentinel_aborts :
    (splitVarios varB).fst =
      some (⟨["0", "1"], [[vInt 1, vStr "A"]]⟩,
            ⟨["0", "1"], [[vInt 10, vStr "C"]]⟩) ∧
    (splitVarios varB).snd = [LogMsg.warnOneSentinel] ∧
    (⟨["0", "1"], [[vInt 10, vStr "C"]]⟩ : DF).idx "id_tipo_trx" = none ∧
    (transform_data cliA trxA varB recA).out = Except.error "transform" := by
  refine ⟨?_, ?_, ?_, ?_⟩ <;> with_unfolding_all rfl

/-! ### Claim C10: in-place mutation of the transactions argument -/

/-- Transactions input whose type-code column holds a null, which makes
the final integer cast of the fact table fail after the in-place column
renaming and date recasting already happened. -/
def trxM : DF := ⟨["a", "b", "c", "d", "e", "f", "g"],
  [[vInt 5, vStr "2024-01-05", vNull, vInt 1, vInt 100, vInt 2, vInt 1]]⟩

/-- C10: transform_data mutates its df_transacciones argument in place.
On an input whose final fact-table cast fails, the transform raises, yet
the caller object has already been altered: its seven column names are
the canonical fact columns and its date column has been re-cast, so on
error the inputs are not left unchanged. -/
theorem c10_input_mutated_on_error :
    (transform_data cliA trxM varA recA).out = Except.error "transform" ∧
    (transform_data cliA trxM varA recA).transFinal ≠ trxM ∧
    (transform_data cliA trxM varA recA).transFinal.cols = factCols ∧
    cell ((transform_data cliA trxM varA recA).transFinal.rows.getD 0 []) 1 =
      vDate 20240105 := by
  refine ⟨?_, ?_, ?_, ?_⟩
  · with_unfolding_all rfl
  · with_unfolding_all decide
  · with_unfolding_all rfl
  · with_unfolding_all rfl


/-! ### Claim C4: synthesized catalog rows -/

/-- Types catalog containing only code 10, for the reconciliation
examples. -/
def tiposC4 : DF := ⟨tiposCols, [[vInt 10, vStr "Cash"]]⟩

/-- C4 counterexample: reconciling a catalog missing code 99 appends one
row whose description is the literal string of the source, which is
Tipo Desconocido (Sistema); the description claimed by the spec,
Unknown type (system-generated), appears nowhere in the emitted
description column, refuting the claimed literal. -/
theorem c4_counterexample :
    (reconcileTipos tiposC4 trxA).fst =
      some ⟨tiposCols,
        [[vInt 10, vStr "Cash"],
         [vInt 99, vStr "Tipo Desconocido (Sistema)"]]⟩ ∧
    (reconcileTipos tiposC4 trxA).snd = [LogMsg.warnOrphans [vInt 99]] ∧
    vStr "Unknown type (system-generated)" ∉
      (⟨tiposCols,
        [[vInt 10, vStr "Cash"],
         [vInt 99, vStr "Tipo Desconocido (Sistema)"]]⟩ : DF).colD
        "descripcion_tipo" := by
  refine ⟨by with_unfolding_all rfl, by with_unfolding_all rfl, ?_⟩
  decide

/-- C4 (amended): for every transaction-type code referenced by the
transactions table but absent from the cleaned catalog, reconciliation
appends exactly one catalog row whose description is the literal string
Tipo Desconocido (Sistema); all original catalog rows come first in
their original order, appended rows follow in the order the codes are
first encountered in the transaction column (the deduplicated column is
its first-encounter fold), and a warning enumerating exactly the
synthesized codes is logged, with no warning when nothing is missing. -/
theorem c4_reconcile_appends (dfT dfTr out : DF) (logs : List LogMsg) (j : Nat)
    (h : reconcileTipos dfT dfTr = (some out, logs))
    (hdesc : colIdx "descripcion_tipo" dfT.cols = some j) :
    ∃ t3 missing,
      cleanTipos dfT = some t3 ∧
      missing = (dedup ((dfTr.colPos? 2).getD [])).filter
        (fun x => decide (x ∉ t3.colD "id_tipo_trx" ∧ x ≠ Val.vNull)) ∧
      out.rows = t3.rows ++ missing.map (mkDummyRow t3.cols) ∧
      out.colD "id_tipo_trx" = t3.colD "id_tipo_trx" ++ missing ∧
      out.colD "descripcion_tipo" = t3.colD "descripcion_tipo" ++
        missing.map (fun _ => Val.vStr dummyDesc) ∧
      missing.Nodup ∧
      (∀ v, v ∈ missing ↔ v ∈ (dfTr.colPos? 2).getD [] ∧
        v ∉ t3.colD "id_tipo_trx" ∧ v ≠ Val.vNull) ∧
      dedup ((dfTr.colPos? 2).getD []) =
        firstEncounter ((dfTr.colPos? 2).getD []) ∧
      (missing = [] → logs = []) ∧
      (missing ≠ [] → logs = [LogMsg.warnOrphans missing]) := by
  obtain ⟨col2, t3, hcp, hct, hcases⟩ := reconcile_parts h
  obtain ⟨i, hi, hcols, hcells⟩ := cleanTipos_parts hct
  have hit3 : colIdx "id_tipo_trx" t3.cols = some i := by
    rw [hcols]; exact hi
  have hjt3 : colIdx "descripcion_tipo" t3.cols = some j := by
    rw [hcols]; exact hdesc
  rw [hcp]
  simp only [Option.getD_some]
  refine ⟨t3, (dedup col2).filter
    (fun x => decide (x ∉ t3.colD "id_tipo_trx" ∧ x ≠ Val.vNull)),
    hct, rfl, ?_, ?_, ?_, (nodup_dedup col2).filter _, ?_,
    dedup_eq_firstEncounter col2, ?_, ?_⟩
  · rcases hcases with ⟨hm, rfl, hl⟩ | ⟨hm, rfl, hl⟩
    · rw [hm]; simp
    · rfl
  · rcases hcases with ⟨hm, rfl, hl⟩ | ⟨hm, rfl, hl⟩
    · rw [hm]; simp
    · rw [colD_concatRows hit3, List.map_map]
      congr 1
      conv_rhs => rw [← List.map_id ((dedup col2).filter
        (fun x => decide (x ∉ t3.colD "id_tipo_trx" ∧ x ≠ Val.vNull)))]
      exact List.map_congr_left (fun m hm2 => cell_mkDummyRow_id m hit3)
  · rcases hcases with ⟨hm, rfl, hl⟩ | ⟨hm, rfl, hl⟩
    · rw [hm]; simp
    · rw [colD_concatRows hjt3, List.map_map]
      congr 1
      exact List.map_congr_left (fun m hm2 => cell_mkDummyRow_desc m hjt3)
  · intro v
    rw [List.mem_filter, mem_dedup, decide_eq_true_eq]
  · intro hm0
    rcases hcases with ⟨hm, rfl, hl⟩ | ⟨hm, rfl, hl⟩
    · exact hl
    · exact absurd hm0 hm
  · intro hm0
    rcases hcases with ⟨hm, rfl, hl⟩ | ⟨hm, rfl, hl⟩
    · exact absurd hm hm0
    · exact hl

/-- The reconciled catalog of the C4 example run. -/
def outC4 : DF :=
  ⟨tiposCols,
   [[vInt 10, vStr "Cash"], [vInt 99, vStr "Tipo Desconocido (Sistema)"]]⟩

theorem c4_witness :
    ∃ t3 missing,
      cleanTipos tiposC4 = some t3 ∧
      missing = (dedup ((trxA.colPos? 2).getD [])).filter
        (fun x => decide (x ∉ t3.colD "id_tipo_trx" ∧ x ≠ Val.vNull)) ∧
      outC4.rows = t3.rows ++ missing.map (mkDummyRow t3.cols) ∧
      outC4.colD "id_tipo_trx" = t3.colD "id_tipo_trx" ++ missing ∧
      outC4.colD "descripcion_tipo" = t3.colD "descripcion_tipo" ++
        missing.map (fun _ => Val.vStr dummyDesc) ∧
      missing.Nodup ∧
      (∀ v, v ∈ missing ↔ v ∈ (trxA.colPos? 2).getD [] ∧
        v ∉ t3.colD "id_tipo_trx" ∧ v ≠ Val.vNull) ∧
      dedup ((trxA.colPos? 2).getD []) =
        firstEncounter ((trxA.colPos? 2).getD []) ∧
      (missing = [] → [LogMsg.warnOrphans [vInt 99]] = []) ∧
      (missing ≠ [] →
        [LogMsg.warnOrphans [vInt 99]] = [LogMsg.warnOrphans missing]) :=
  c4_reconcile_appends tiposC4 trxA outC4 [LogMsg.warnOrphans [vInt 99]] 1
    (by with_unfolding_all rfl) (by with_unfolding_all rfl)

/-! ### Claim C5: no numeric coercion of referenced codes -/

/-- Transactions input whose third positional column holds the
non-numeric string abc. -/
def trxC5 : DF := ⟨["a", "b", "c", "d", "e", "f", "g"],
  [[vInt 5, vStr "2024-01-02", vStr "abc", vInt 1, vInt 100, vInt 2,
    vInt 1]]⟩

/-- C5 counterexample: the string abc in the type-code column is not
numerically coercible, yet reconciliation synthesizes a catalog row for
it, refuting the claim that unparsable codes are dropped before the set
difference and never give rise to synthesized rows. -/
theorem c5_counterexample :
    toNumeric? (vStr "abc") = none ∧
    (reconcileTipos tiposC4 trxC5).fst =
      some ⟨tiposCols,
        [[vInt 10, vStr "Cash"],
         [vStr "abc", vStr "Tipo Desconocido (Sistema)"]]⟩ ∧
    vStr "abc" ∈
      (⟨tiposCols,
        [[vInt 10, vStr "Cash"],
         [vStr "abc", vStr "Tipo Desconocido (Sistema)"]]⟩ : DF).colD
        "id_tipo_trx" := by
  refine ⟨by decide, by with_unfolding_all rfl, by decide⟩

/-- C5 (amended): the referenced code set used for reconciliation is the
raw distinct values of the third positional column with no numeric
coercion applied; only nulls are excluded. In particular a non-null code
that fails numeric coercion is never present in the cleaned catalog
(whose ids are all integers), so it always gives rise to a synthesized
catalog row and appears in the emitted id column. -/
theorem c5_unparsable_code_synthesized (dfT dfTr out : DF)
    (logs : List LogMsg) (v : Val)
    (h : reconcileTipos dfT dfTr = (some out, logs))
    (hv : v ∈ (dfTr.colPos? 2).getD []) (hnn : v ≠ Val.vNull)
    (hnum : toNumeric? v = none) :
    v ∈ out.colD "id_tipo_trx" ∧
    ∃ t3, cleanTipos dfT = some t3 ∧ v ∉ t3.colD "id_tipo_trx" := by
  obtain ⟨col2, t3, hcp, hct, hcases⟩ := reconcile_parts h
  obtain ⟨i, hi, hcols, hcells⟩ := cleanTipos_parts hct
  have hit3 : t3.idx "id_tipo_trx" = some i := by
    show colIdx "id_tipo_trx" t3.cols = some i
    rw [hcols]; exact hi
  refine ⟨reconcile_superset h v hv hnn, t3, hct, fun hmem => ?_⟩
  rw [colD_of_idx hit3] at hmem
  obtain ⟨r, hr, hcell⟩ := List.mem_map.mp hmem
  obtain ⟨n, hn, _⟩ := hcells r hr
  rw [← hcell, hn] at hnum
  exact absurd hnum (by simp [toNumeric?])

theorem c5_witness :
    vStr "abc" ∈
      (⟨tiposCols,
        [[vInt 10, vStr "Cash"],
         [vStr "abc", vStr "Tipo Desconocido (Sistema)"]]⟩ : DF).colD
        "id_tipo_trx" ∧
    ∃ t3, cleanTipos tiposC4 = some t3 ∧
      vStr "abc" ∉ t3.colD "id_tipo_trx" :=
  c5_unparsable_code_synthesized tiposC4 trxC5
    ⟨tiposCols,
      [[vInt 10, vStr "Cash"],
       [vStr "abc", vStr "Tipo Desconocido (Sistema)"]]⟩
    [LogMsg.warnOrphans [vStr "abc"]] (vStr "abc")
    (by with_unfolding_all rfl) (by decide) (by decide) (by decide)


/-! ### Claim C9: idempotence of the final type-coercion stage -/

/-- C9: the final type-coercion stage is idempotent. Whenever it
succeeds, applying it a second time to its own output (parsing the
affiliation, first-transaction and transaction date columns, dropping
site rows with null or non-numeric id before casting to integer, and
casting the fact type-code column to integer) succeeds and returns
exactly the same three tables. -/
theorem c9_typecast_idempotent (cli tr se cli2 tr2 se2 : DF)
    (h : typeCastStage cli tr se = some (cli2, tr2, se2)) :
    typeCastStage cli2 tr2 se2 = some (cli2, tr2, se2) := by
  rw [typeCastStage, Option.bind_eq_some] at h
  obtain ⟨c0, hc, h⟩ := h
  rw [Option.bind_eq_some] at h
  obtain ⟨t1, ht1, h⟩ := h
  rw [Option.bind_eq_some] at h
  obtain ⟨s0, hs, h⟩ := h
  rw [Option.map_eq_some'] at h
  obtain ⟨t2, ht2, heq⟩ := h
  injection heq with e1 h23
  injection h23 with e2 e3
  subst e1; subst e2; subst e3
  have fixT : colFixed t2 "fecha_trx" toDatetime :=
    colFixed_astypeIntCol_ne (colFixed_of_mapCol toDatetime_idem ht1) ht2
      (by decide)
  obtain ⟨i, hi, hcols, hcast⟩ := astypeIntCol_parts ht2
  rw [typeCastStage, Option.bind_eq_some]
  refine ⟨c0, castClientes_idem hc, ?_⟩
  rw [Option.bind_eq_some]
  refine ⟨t2, mapCol_of_colFixed fixT, ?_⟩
  rw [Option.bind_eq_some]
  refine ⟨s0, castSedes_idem hs, ?_⟩
  rw [Option.map_eq_some']
  refine ⟨t2, ?_, rfl⟩
  refine astypeIntCol_fix ?_ (castIntRows_mem_vInt hcast)
  show colIdx "id_tipo_trx" t2.cols = some i
  rw [hcols]
  exact hi

/-- Client dimension input of the C9 example. -/
def cliW : DF :=
  ⟨["id_cliente", "fecha_afiliacion", "fecha_primera_trx",
    "id_distribuidor", "telefono", "categoria", "recomendados"],
   [[vInt 5, vStr "2024-01-01", vNull, vInt 7, vStr "555", vStr "A",
     vInt 2]]⟩

/-- Fact table input of the C9 example. -/
def trW : DF :=
  ⟨["id_cliente", "fecha_trx", "id_tipo_trx", "id_trx", "monto", "fee",
    "id_sede"],
   [[vInt 5, vStr "2024-01-02", vInt 99, vInt 1, vInt 100, vInt 2,
     vInt 1]]⟩

/-- Sites catalog input of the C9 example, with a numeric string id. -/
def seW : DF := ⟨["id_sede", "nombre_sede"], [[vStr "3", vStr "S"]]⟩

/-- Client dimension after one cast pass. -/
def cliW2 : DF :=
  ⟨["id_cliente", "fecha_afiliacion", "fecha_primera_trx",
    "id_distribuidor", "telefono", "categoria", "recomendados"],
   [[vInt 5, vDate 20240101, vNull, vInt 7, vStr "555", vStr "A",
     vInt 2]]⟩

/-- Fact table after one cast pass. -/
def trW2 : DF :=
  ⟨["id_cliente", "fecha_trx", "id_tipo_trx", "id_trx", "monto", "fee",
    "id_sede"],
   [[vInt 5, vDate 20240102, vInt 99, vInt 1, vInt 100, vInt 2,
     vInt 1]]⟩

/-- Sites catalog after one cast pass. -/
def seW2 : DF := ⟨["id_sede", "nombre_sede"], [[vInt 3, vStr "S"]]⟩

theorem c9_witness :
    typeCastStage cliW2 trW2 seW2 = some (cliW2, trW2, seW2) :=
  c9_typecast_idempotent cliW trW seW cliW2 trW2 seW2
    (by with_unfolding_all rfl)


/-! ### Claim C8: distributor deduplication -/

theorem project_parts {df out : DF} {cs : List String}
    (h : df.project cs = some out) :
    out.cols = cs ∧ ∃ is, allSome (cs.map (fun c => df.idx c)) = some is ∧
      out.rows = df.rows.map (fun r => projectRow r is) := by
  rw [DF.project, Option.map_eq_some'] at h
  obtain ⟨is, his, rfl⟩ := h
  exact ⟨rfl, is, his, rfl⟩

theorem dropDupCol_parts {df out : DF} {c : String}
    (h : df.dropDupCol c = some out) :
    ∃ i, df.idx c = some i ∧ out.cols = df.cols ∧
      out.rows = dedupRowsAux i [] df.rows := by
  rw [DF.dropDupCol, Option.map_eq_some'] at h
  obtain ⟨i, hi, rfl⟩ := h
  exact ⟨i, hi, rfl, rfl⟩

theorem dedupRowsAux_key_not_seen (i : Nat) (rs : List (List Val)) :
    ∀ seen, ∀ r ∈ dedupRowsAux i seen rs, cell r i ∉ seen := by
  induction rs with
  | nil => intro seen r hr; rw [dedupRowsAux] at hr; cases hr
  | cons q rest ih =>
    intro seen r hr
    rw [dedupRowsAux] at hr
    by_cases hq : cell q i ∈ seen
    · rw [if_pos hq] at hr
      exact ih seen r hr
    · rw [if_neg hq] at hr
      rcases List.mem_cons.mp hr with rfl | hr
      · exact hq
      · intro hmem
        exact ih (cell q i :: seen) r hr (List.mem_cons_of_mem _ hmem)

theorem dedupRowsAux_find (i : Nat) (rs : List (List Val)) :
    ∀ seen, ∀ r ∈ dedupRowsAux i seen rs,
      rs.find? (fun q => decide (cell q i = cell r i)) = some r := by
  induction rs with
  | nil => intro seen r hr; rw [dedupRowsAux] at hr; cases hr
  | cons q rest ih =>
    intro seen r hr
    rw [dedupRowsAux] at hr
    by_cases hq : cell q i ∈ seen
    · rw [if_pos hq] at hr
      have hnot : cell r i ∉ seen := dedupRowsAux_key_not_seen i rest seen r hr
      have hne : ¬ (cell q i = cell r i) := fun he => hnot (he ▸ hq)
      rw [List.find?_cons_of_neg _ (by simpa using hne)]
      exact ih seen r hr
    · rw [if_neg hq] at hr
      rcases List.mem_cons.mp hr with rfl | hr
      · rw [List.find?_cons_of_pos _ (by simp)]
      · have hnot : cell r i ∉ cell q i :: seen :=
          dedupRowsAux_key_not_seen i rest (cell q i :: seen) r hr
        have hne : ¬ (cell q i = cell r i) := fun he =>
          hnot (by rw [← he]; exact List.mem_cons_self _ _)
        rw [List.find?_cons_of_neg _ (by simpa using hne)]
        exact ih (cell q i :: seen) r hr

theorem dedupRowsAux_keys_nodup (i : Nat) (rs : List (List Val)) :
    ∀ seen, ((dedupRowsAux i seen rs).map (fun r => cell r i)).Nodup := by
  induction rs with
  | nil => intro seen; rw [dedupRowsAux]; simp
  | cons q rest ih =>
    intro seen
    rw [dedupRowsAux]
    by_cases hq : cell q i ∈ seen
    · rw [if_pos hq]
      exact ih seen
    · rw [if_neg hq]
      rw [List.map_cons, List.nodup_cons]
      refine ⟨fun hmem => ?_, ih (cell q i :: seen)⟩
      obtain ⟨r, hr, hcr⟩ := List.mem_map.mp hmem
      exact dedupRowsAux_key_not_seen i rest (cell q i :: seen) r hr
        (by rw [hcr]; exact List.mem_cons_self _ _)

/-- C8: the emitted distributor dimension has no two rows sharing a
distributor id, and for every emitted row, the first row of the
projected source with that distributor id is exactly that row: the
first occurrence in source order survives deduplication. -/
theorem c8_distributors_unique (dfRec out : DF)
    (h : buildDist dfRec = some out) :
    out.cols = ["id_distribuidor", "nombre_distribuidor"] ∧
    (out.colD "id_distribuidor").Nodup ∧
    ∃ p, dfRec.project ["IDDISTRIBUIDOR", "NOMBRE DISTRIBUIDOR"] = some p ∧
      out.rows = dedupRowsAux 0 [] p.rows ∧
      ∀ r ∈ out.rows,
        p.rows.find? (fun q => decide (cell q 0 = cell r 0)) = some r := by
  rw [buildDist, Option.bind_eq_some] at h
  obtain ⟨p, hp, h⟩ := h
  rw [Option.bind_eq_some] at h
  obtain ⟨dd, hdd, hsc⟩ := h
  obtain ⟨hpcols, _⟩ := project_parts hp
  obtain ⟨i, hpi, hddcols, hddrows⟩ := dropDupCol_parts hdd
  have hi0 : i = 0 := by
    have : colIdx "IDDISTRIBUIDOR" p.cols = some i := hpi
    rw [hpcols] at this
    have h0 : colIdx "IDDISTRIBUIDOR"
        ["IDDISTRIBUIDOR", "NOMBRE DISTRIBUIDOR"] = some 0 := by decide
    exact Option.some.inj (this.symm.trans h0)
  subst hi0
  obtain ⟨hocols, horows, holen⟩ := setCols_parts hsc
  have hoidx : out.idx "id_distribuidor" = some 0 := by
    show colIdx "id_distribuidor" out.cols = some 0
    rw [hocols]
    decide
  refine ⟨hocols, ?_, p, hp, by rw [horows, hddrows], ?_⟩
  · rw [colD_of_idx hoidx, horows, hddrows]
    exact dedupRowsAux_keys_nodup 0 p.rows []
  · intro r hr
    rw [horows, hddrows] at hr
    exact dedupRowsAux_find 0 p.rows [] r hr

/-- Recommendations source with a duplicated distributor id. -/
def recC8 : DF :=
  ⟨["IDCLIENTE", "IDDISTRIBUIDOR", "NOMBRE DISTRIBUIDOR", "TELEFONO",
    "categoría", "recomendados"],
   [[vInt 1, vInt 7, vStr "First", vStr "111", vStr "A", vInt 0],
    [vInt 2, vInt 7, vStr "Second", vStr "222", vStr "B", vInt 1],
    [vInt 3, vInt 8, vStr "Other", vStr "333", vStr "C", vInt 2]]⟩

/-- Distributor dimension built from the duplicated source. -/
def outC8 : DF :=
  ⟨["id_distribuidor", "nombre_distribuidor"],
   [[vInt 7, vStr "First"], [vInt 8, vStr "Other"]]⟩

theorem c8_witness :
    outC8.cols = ["id_distribuidor", "nombre_distribuidor"] ∧
    (outC8.colD "id_distribuidor").Nodup ∧
    ∃ p, recC8.project ["IDDISTRIBUIDOR", "NOMBRE DISTRIBUIDOR"] = some p ∧
      outC8.rows = dedupRowsAux 0 [] p.rows ∧
      ∀ r ∈ outC8.rows,
        p.rows.find? (fun q => decide (cell q 0 = cell r 0)) = some r :=
  c8_distributors_unique recC8 outC8 (by with_unfolding_all rfl)


/-! ### Claim C7: the client dimension left join -/

/-- Canonical output columns of the client dimension. -/
def clientesOutCols : List String :=
  ["id_cliente", "fecha_afiliacion", "fecha_primera_trx",
   "id_distribuidor", "telefono", "categoria", "recomendados"]

/-- Follows the spec words for one client row of the enrichment join:
the matching recommendation rows are those whose client id equals the
client row id; with no match the client row is kept once with nulls in
the four joined fields; otherwise the client row is repeated once per
match in source order, carrying the distributor id, phone, category and
recommendation count of the match. -/
def joinOneClient (recRows : List (List Val)) (r : List Val) :
    List (List Val) :=
  let ms := recRows.filter (fun q => decide (cell q 0 = cell r 0))
  if ms.isEmpty then [r ++ [Val.vNull, Val.vNull, Val.vNull, Val.vNull]]
  else ms.map (fun q => r ++ [cell q 1, cell q 3, cell q 4, cell q 5])

/-- Follows the spec words for the client enrichment: a left outer join
of the client rows against the recommendation rows on the client id,
preserving every client row. -/
def leftJoinClientsSpec (cliRows recRows : List (List Val)) :
    List (List Val) :=
  cliRows.flatMap (joinOneClient recRows)

theorem flatMap_congr_mem {α β : Type} {l : List α} {f g : α → List β}
    (h : ∀ a ∈ l, f a = g a) : l.flatMap f = l.flatMap g := by
  induction l with
  | nil => rfl
  | cons x xs ih =>
    rw [List.flatMap_cons, List.flatMap_cons, h x (List.mem_cons_self x xs),
      ih (fun a ha => h a (List.mem_cons_of_mem _ ha))]

theorem filter_key_proj (recRows : List (List Val)) (r : List Val) :
    (recRows.map (fun q => projectRow q [0, 1, 3, 4, 5])).filter
      (fun q2 => decide (cell q2 0 = cell r 0)) =
    (recRows.filter (fun q => decide (cell q 0 = cell r 0))).map
      (fun q => projectRow q [0, 1, 3, 4, 5]) := by
  rw [List.filter_map]
  rfl

theorem merge_row_spec (recRows : List (List Val)) (r : List Val)
    (hlen : r.length = 3) :
    ((if ((recRows.map (fun q => projectRow q [0, 1, 3, 4, 5])).filter
          (fun q2 => decide (cell q2 0 = cell r 0))).isEmpty then
        [r ++ List.replicate 5 Val.vNull]
      else ((recRows.map (fun q => projectRow q [0, 1, 3, 4, 5])).filter
          (fun q2 => decide (cell q2 0 = cell r 0))).map
        (fun q2 => r ++ q2)).map (fun r2 => r2.eraseIdx 3)) =
    joinOneClient recRows r := by
  rw [filter_key_proj, joinOneClient]
  cases hms : recRows.filter (fun q => decide (cell q 0 = cell r 0)) with
  | nil =>
    show [(r ++ List.replicate 5 Val.vNull).eraseIdx 3] =
      [r ++ [Val.vNull, Val.vNull, Val.vNull, Val.vNull]]
    rw [List.eraseIdx_append_of_length_le (le_of_eq hlen), hlen]
    rfl
  | cons q qs =>
    show (((q :: qs).map (fun q2 => projectRow q2 [0, 1, 3, 4, 5])).map
        (fun q2 => r ++ q2)).map (fun r2 => r2.eraseIdx 3) =
      (q :: qs).map (fun q2 => r ++ [cell q2 1, cell q2 3, cell q2 4,
        cell q2 5])
    rw [List.map_map, List.map_map]
    refine List.map_congr_left (fun q2 hq2 => ?_)
    show (r ++ projectRow q2 [0, 1, 3, 4, 5]).eraseIdx 3 =
      r ++ [cell q2 1, cell q2 3, cell q2 4, cell q2 5]
    rw [List.eraseIdx_append_of_length_le (le_of_eq hlen), hlen]
    rfl

theorem leftJoinClientsSpec_length (recRows : List (List Val)) :
    ∀ cliRows : List (List Val),
      (∀ r ∈ cliRows,
        (recRows.filter
          (fun q => decide (cell q 0 = cell r 0))).length ≤ 1) →
      (leftJoinClientsSpec cliRows recRows).length = cliRows.length := by
  intro cliRows
  induction cliRows with
  | nil => intro _; rfl
  | cons r rest ih =>
    intro hAll
    rw [leftJoinClientsSpec, List.flatMap_cons, List.length_append,
      ← leftJoinClientsSpec,
      ih (fun r2 hr2 => hAll r2 (List.mem_cons_of_mem _ hr2))]
    have hone : (joinOneClient recRows r).length = 1 := by
      rw [joinOneClient]
      cases hms : recRows.filter (fun q => decide (cell q 0 = cell r 0)) with
      | nil => rfl
      | cons q qs =>
        have hle := hAll r (List.mem_cons_self _ _)
        rw [hms] at hle
        have hqs : qs = [] := by
          rw [List.length_cons] at hle
          exact List.eq_nil_of_length_eq_zero (by omega)
        subst hqs
        rfl
    rw [hone, List.length_cons]
    omega

/-- C7: the client dimension is the left outer join of the base client
rows with the projected recommendation rows on client id. Its columns
are the canonical renamed ones with the duplicate join key dropped; its
rows are exactly the spec join, so every base row is preserved, a row
without matches appears exactly once with null joined fields, a row with
several matches is repeated once per match, and when every client has at
most one match the row count equals the input client row count. -/
theorem c7_client_left_join (dfCli dfRec out : DF)
    (hc : dfCli.cols = ["IDCLIENTE", "fechaafiliacion", "fechaprimertrx"])
    (hcl : ∀ r ∈ dfCli.rows, r.length = 3)
    (hr : dfRec.cols = ["IDCLIENTE", "IDDISTRIBUIDOR",
      "NOMBRE DISTRIBUIDOR", "TELEFONO", "categoría", "recomendados"])
    (h : buildClientes dfCli dfRec = some out) :
    out.cols = clientesOutCols ∧
    out.rows = leftJoinClientsSpec dfCli.rows dfRec.rows ∧
    ((∀ r ∈ dfCli.rows,
        (dfRec.rows.filter
          (fun q => decide (cell q 0 = cell r 0))).length ≤ 1) →
      out.rows.length = dfCli.rows.length) ∧
    (∀ r ∈ dfCli.rows,
      dfRec.rows.filter (fun q => decide (cell q 0 = cell r 0)) = [] →
      (r ++ [Val.vNull, Val.vNull, Val.vNull, Val.vNull]) ∈ out.rows) := by
  rw [buildClientes, Option.bind_eq_some] at h
  obtain ⟨sub, hsub, h⟩ := h
  rw [Option.map_eq_some'] at h
  obtain ⟨m, hm, hout⟩ := h
  have his : allSome (recSubsetCols.map (fun c => dfRec.idx c)) =
      some [0, 1, 3, 4, 5] := by
    show allSome (recSubsetCols.map (fun c => colIdx c dfRec.cols)) =
      some [0, 1, 3, 4, 5]
    rw [hr]
    decide
  rw [DF.project, his, Option.map_some'] at hsub
  injection hsub with hsub
  subst hsub
  have hbase : (dfCli.renameCols clientesRename).cols =
      ["id_cliente", "fecha_afiliacion", "fecha_primera_trx"] := by
    show dfCli.cols.map (renameOne clientesRename) = _
    rw [hc]
    decide
  have hl0 : colIdx "id_cliente" (dfCli.renameCols clientesRename).cols =
      some 0 := by
    rw [hbase]
    decide
  have hr0 : colIdx "IDCLIENTE" (recSubsetCols : List String) = some 0 := by
    decide
  rw [DF.mergeLeft] at hm
  rw [hl0] at hm
  rw [show colIdx "IDCLIENTE"
      (DF.mk recSubsetCols
        (dfRec.rows.map (fun r => projectRow r [0, 1, 3, 4, 5]))).cols =
      some 0 from hr0] at hm
  injection hm with hm
  subst hm
  dsimp only at hout
  have hmc : ((dfCli.renameCols clientesRename).cols ++
      (recSubsetCols : List String)) =
      ["id_cliente", "fecha_afiliacion", "fecha_primera_trx", "IDCLIENTE",
       "IDDISTRIBUIDOR", "TELEFONO", "categoría", "recomendados"] := by
    rw [hbase]
    decide
  rw [if_pos (show "IDCLIENTE" ∈ (dfCli.renameCols clientesRename).cols ++
      recSubsetCols by rw [hmc]; decide)] at hout
  rw [DF.dropCol, DF.idx] at hout
  dsimp only at hout
  rw [show colIdx "IDCLIENTE" ((dfCli.renameCols clientesRename).cols ++
      recSubsetCols) = some 3 by rw [hmc]; decide] at hout
  have h1 : out.cols = clientesOutCols := by
    rw [← hout]
    show (((dfCli.renameCols clientesRename).cols ++
      recSubsetCols).eraseIdx 3).map (renameOne mergedRename) =
      clientesOutCols
    rw [hmc]
    decide
  have h2 : out.rows = leftJoinClientsSpec dfCli.rows dfRec.rows := by
    rw [← hout]
    show ((dfCli.rows.flatMap (fun lr =>
        if (List.filter (fun rr => decide (cell rr 0 = cell lr 0))
            (List.map (fun r => projectRow r [0, 1, 3, 4, 5])
              dfRec.rows)).isEmpty = true then
          [lr ++ List.replicate recSubsetCols.length Val.vNull]
        else
          List.map (fun rr => lr ++ rr)
            (List.filter (fun rr => decide (cell rr 0 = cell lr 0))
              (List.map (fun r => projectRow r [0, 1, 3, 4, 5])
                dfRec.rows)))).map (fun r2 => r2.eraseIdx 3)) =
      leftJoinClientsSpec dfCli.rows dfRec.rows
    rw [List.map_flatMap, leftJoinClientsSpec]
    exact flatMap_congr_mem (fun r hrr => merge_row_spec dfRec.rows r
      (hcl r hrr))
  refine ⟨h1, h2, ?_, ?_⟩
  · intro hle
    rw [h2]
    exact leftJoinClientsSpec_length dfRec.rows dfCli.rows hle
  · intro r hrr hemp
    rw [h2]
    refine List.mem_flatMap.mpr ⟨r, hrr, ?_⟩
    rw [joinOneClient, hemp]
    simp


/-- Clients input of the C7 example: one client with a match, one
without. -/
def cliC7 : DF := ⟨["IDCLIENTE", "fechaafiliacion", "fechaprimertrx"],
  [[vInt 5, vStr "2024-01-01", vNull], [vInt 6, vStr "2024-02-02", vNull]]⟩

/-- Client dimension built from the C7 example. -/
def outC7 : DF :=
  ⟨["id_cliente", "fecha_afiliacion", "fecha_primera_trx",
    "id_distribuidor", "telefono", "categoria", "recomendados"],
   [[vInt 5, vStr "2024-01-01", vNull, vInt 7, vStr "555", vStr "A",
     vInt 2],
    [vInt 6, vStr "2024-02-02", vNull, vNull, vNull, vNull, vNull]]⟩

theorem c7_witness :
    outC7.cols = clientesOutCols ∧
    outC7.rows = leftJoinClientsSpec cliC7.rows recA.rows ∧
    ((∀ r ∈ cliC7.rows,
        (recA.rows.filter
          (fun q => decide (cell q 0 = cell r 0))).length ≤ 1) →
      outC7.rows.length = cliC7.rows.length) ∧
    (∀ r ∈ cliC7.rows,
      recA.rows.filter (fun q => decide (cell q 0 = cell r 0)) = [] →
      (r ++ [Val.vNull, Val.vNull, Val.vNull, Val.vNull]) ∈ outC7.rows) :=
  c7_client_left_join cliC7 recA outC7 (by rfl) (by decide) (by rfl)
    (by with_unfolding_all rfl)

end ETL
